import Mathlib

/-!
Verification of the GSAP-Playground application (a browser-based visual
editor that turns chat turns into GSAP animation steps).

The development shallowly embeds the application's state and handlers:

* the Gemini service layer (geminiService, functions sendMessageToAI in its
  two drafts), with the network call, JSON.parse and the fenced-code regex
  modelled as explicit parameters, and thrown JavaScript values modelled by
  the type Thrown;
* the App component's state containers (element list, animation-step list,
  chat history, loading flag) and its handlers handleSendMessage,
  handleIdChange, handleSort, and the helper formatGSAPCode;
* the single localStorage interaction (theme flag) as an explicit
  operation list;
* the chat send-path concurrency discipline as a small transition system.

JavaScript numbers are modelled as integers (no claim performs fractional
arithmetic); JSON values are modelled by the inductive type Json and
JavaScript truthiness by jsTruthy.
-/

/-- A parsed JSON value, as produced by JSON.parse. -/
inductive Json where
  | null : Json
  | bool (b : Bool) : Json
  | num (n : Int) : Json
  | str (s : String) : Json
  | arr (elems : List Json) : Json
  | obj (fields : List (String × Json)) : Json

/-- JavaScript truthiness of a JSON value (absent NaN, which no claim needs). -/
def jsTruthy : Json → Bool
  | .null => false
  | .bool b => b
  | .num n => n != 0
  | .str s => !(s.isEmpty)
  | .arr _ => true
  | .obj _ => true

/-- Property access on a JSON object's field list; the last binding of a key
wins, matching how JSON.parse collapses duplicate keys. -/
def getProp (fields : List (String × Json)) (key : String) : Option Json :=
  fields.foldl (fun acc kv => if kv.fst = key then some kv.snd else acc) none

/-- Leading-whitespace removal on a character list. -/
def dropLeadingWs : List Char → List Char
  | [] => []
  | c :: cs => if c.isWhitespace then dropLeadingWs cs else c :: cs

/-- String.prototype.trim: remove leading and trailing whitespace. -/
def jsTrim (s : String) : String :=
  String.mk ((dropLeadingWs (dropLeadingWs s.data).reverse).reverse)

/-- String.prototype.startsWith. -/
def jsStartsWith (s pat : String) : Bool := pat.data.isPrefixOf s.data

/-- String.prototype.endsWith. -/
def jsEndsWith (s pat : String) : Bool := pat.data.isSuffixOf s.data

/-- A thrown JavaScript value: either an Error carrying a message, or any
other value (the instanceof Error check in the catch blocks distinguishes
the two). -/
inductive Thrown where
  | error (message : String)
  | other

/-- The error_message the catch blocks derive from a thrown value. -/
def thrownMessage : Thrown → String
  | .error m => m
  | .other => "An unknown error occurred."

/-- The fallback AIResponse object built by the catch block of
sendMessageToAI in src/unnamed/part_000 (lines 208-215). -/
def errorResponseV0 (e : Thrown) : Json :=
  .obj [("response_type", .str "error"),
        ("explanation", .str "Sorry, I encountered an error trying to process that. The AI\x27s response might have been malformed. Please try phrasing your request differently."),
        ("error_message", .str (thrownMessage e))]

/-- The fallback AIResponse object built by the catch block of
sendMessageToAI in src/unnamed/part_001 (lines 169-177). -/
def errorResponseV1 (e : Thrown) : Json :=
  .obj [("response_type", .str "error"),
        ("explanation", .str "Sorry, I encountered an error trying to process that. Maybe try phrasing it differently?"),
        ("error_message", .str (thrownMessage e))]

/-- sendMessageToAI from src/unnamed/part_000 (lines 176-216).  The chat
network call is the parameter net (ok text, or a thrown value); JSON.parse
is the parameter parse (its result, or the value it throws); the regex
match for a fenced json block is the parameter fence (the first capture
group, when the regex matches).  A thrown value anywhere inside the try
block lands in the single catch, which returns errorResponseV0; only the
empty-message guard before the try can propagate a throw to the caller. -/
def sendMessageToAI (message : String) (net : Except Thrown String)
    (parse : String → Except Thrown Json) (fence : String → Option String) :
    Except Thrown Json :=
  if jsTrim message = "" then .error (.error "Message cannot be empty.")
  else .ok <|
    match net with
    | .error e => errorResponseV0 e
    | .ok txt =>
      let jsonText := jsTrim txt
      if !(jsStartsWith jsonText "\x7b") || !(jsEndsWith jsonText "\x7d") then
        match fence jsonText with
        | some captured =>
          if captured = "" then errorResponseV0 (.error "AI did not return valid JSON.")
          else
            match parse (jsTrim captured) with
            | .ok v => v
            | .error e => errorResponseV0 e
        | none => errorResponseV0 (.error "AI did not return valid JSON.")
      else
        match parse jsonText with
        | .ok v => v
        | .error e => errorResponseV0 e

/-- sendMessageToAI from src/unnamed/part_001 (lines 149-178): same shape,
without the fenced-block fallback. -/
def sendMessageToAIv1 (message : String) (net : Except Thrown String)
    (parse : String → Except Thrown Json) : Except Thrown Json :=
  if jsTrim message = "" then .error (.error "Message cannot be empty.")
  else .ok <|
    match net with
    | .error e => errorResponseV1 e
    | .ok txt =>
      let jsonText := jsTrim txt
      if !(jsStartsWith jsonText "\x7b") || !(jsEndsWith jsonText "\x7d") then
        errorResponseV1 (.error "AI did not return valid JSON.")
      else
        match parse jsonText with
        | .ok v => v
        | .error e => errorResponseV1 e

/-- The ElementType union from types.ts (src/unnamed/part_004). -/
inductive ElementType where
  | box | circle | text | image | video
  deriving DecidableEq, Repr

/-- StageElement from types.ts (src/unnamed/part_004).  Optional interface
fields are Option types; numbers are Int. -/
structure StageElement where
  id : String
  type : ElementType
  x : Int
  y : Int
  width : String
  height : String
  rotation : Int
  opacity : Int
  backgroundColor : Option String := none
  color : Option String := none
  text : Option String := none
  fontSize : Option Int := none
  fontWeight : Option String := none
  src : Option String := none
  autoplay : Option Bool := none
  loop : Option Bool := none
  muted : Option Bool := none
  deriving DecidableEq, Repr

/-- A Partial StageElement, as carried by modified_elements[].props: a key
is either present with a value (some) or absent (none). -/
structure ElementPatch where
  id : Option String := none
  type : Option ElementType := none
  x : Option Int := none
  y : Option Int := none
  width : Option String := none
  height : Option String := none
  rotation : Option Int := none
  opacity : Option Int := none
  backgroundColor : Option String := none
  color : Option String := none
  text : Option String := none
  fontSize : Option Int := none
  fontWeight : Option String := none
  src : Option String := none
  autoplay : Option Bool := none
  loop : Option Bool := none
  muted : Option Bool := none
  deriving DecidableEq, Repr

/-- Merge of one optional field under object spread: a key present in the
patch overwrites, an absent key keeps the base value. -/
def spreadField (pv base : Option α) : Option α :=
  match pv with
  | some v => some v
  | none => base

/-- JavaScript object spread of a patch over an element, as in the
expression writing modified element properties (src/unnamed/part_002, line
549). -/
def applyPatch (el : StageElement) (p : ElementPatch) : StageElement where
  id := p.id.getD el.id
  type := p.type.getD el.type
  x := p.x.getD el.x
  y := p.y.getD el.y
  width := p.width.getD el.width
  height := p.height.getD el.height
  rotation := p.rotation.getD el.rotation
  opacity := p.opacity.getD el.opacity
  backgroundColor := spreadField p.backgroundColor el.backgroundColor
  color := spreadField p.color el.color
  text := spreadField p.text el.text
  fontSize := spreadField p.fontSize el.fontSize
  fontWeight := spreadField p.fontWeight el.fontWeight
  src := spreadField p.src el.src
  autoplay := spreadField p.autoplay el.autoplay
  loop := spreadField p.loop el.loop
  muted := spreadField p.muted el.muted

/-- AnimationStep from types.ts: target selector, a free-form vars object,
and an optional timeline position. -/
structure AnimationStep where
  target : String
  vars : List (String × Json)
  position : Option String := none

/-- Chat roles from the ChatMessage type. -/
inductive Role where
  | user | model
  deriving DecidableEq, Repr

/-- ChatMessage from types.ts. -/
structure ChatMessage where
  role : Role
  text : String

/-- The AIResponse object as the App consumes it.  The service performs no
schema validation, so response_type is an arbitrary string and each array
field is some list exactly when the corresponding Array.isArray check
passes. -/
structure AIResponse where
  response_type : String
  explanation : Option String := none
  new_elements : Option (List StageElement) := none
  modified_elements : Option (List (String × ElementPatch)) := none
  animation_steps : Option (List AnimationStep) := none
  error_message : Option String := none

/-- The App component's state containers (src/unnamed/part_002, lines
496-500). -/
structure AppState where
  elements : List StageElement
  selectedElementId : Option String
  animationSteps : List AnimationStep
  chatHistory : List ChatMessage
  isLoading : Bool

/-- One iteration of the modified_elements forEach (src/unnamed/part_002,
lines 546-551): find the element with the entry's id and spread the entry's
props over it. -/
def applyModification (acc : List StageElement) (mod : String × ElementPatch) :
    List StageElement :=
  match acc.findIdx? (fun e => e.id = mod.fst) with
  | some idx =>
    match acc[idx]? with
    | some el => acc.set idx (applyPatch el mod.snd)
    | none => acc
  | none => acc

/-- The whole modified_elements forEach over a copy of the element list
(src/unnamed/part_002, lines 544-553). -/
def applyModifications (elements : List StageElement)
    (mods : List (String × ElementPatch)) : List StageElement :=
  mods.foldl applyModification elements

/-- Truthiness of an optional string property, as tested by the
explanation check. -/
def jsTruthyStr : Option String → Bool
  | some t => !(t.isEmpty)
  | none => false

/-- handleSendMessage from src/unnamed/part_002 (lines 528-565) as a state
transformer.  The resolved AI response is a parameter;
resetElementsToInitialState only touches GSAP visual state and is omitted.
The three response_type branches are guarded exactly as in the source
(strict equality plus Array.isArray, plus the length check on
animation_steps); the finally block clears isLoading. -/
def handleSendMessage (st : AppState) (message : String)
    (aiResponse : AIResponse) : AppState :=
  let st1 := { st with isLoading := true,
                       chatHistory := st.chatHistory ++ [({ role := .user, text := message } : ChatMessage)] }
  let st2 :=
    if jsTruthyStr aiResponse.explanation then
      { st1 with chatHistory := st1.chatHistory ++ [({ role := .model, text := aiResponse.explanation.getD "" } : ChatMessage)] }
    else st1
  let st3 :=
    if aiResponse.response_type = "element_creation" then
      match aiResponse.new_elements with
      | some newEls => { st2 with elements := st2.elements ++ newEls }
      | none => st2
    else st2
  let st4 :=
    if aiResponse.response_type = "element_modification" then
      match aiResponse.modified_elements with
      | some mods => { st3 with elements := applyModifications st3.elements mods }
      | none => st3
    else st3
  let st5 :=
    if aiResponse.response_type = "animation" then
      match aiResponse.animation_steps with
      | some steps =>
        if steps.length > 0 then { st4 with animationSteps := st4.animationSteps ++ steps }
        else st4
      | none => st4
    else st4
  { st5 with isLoading := false }

/-- handleIdChange from src/unnamed/part_002 (lines 611-621): guarded
rename of an element id, with the selection following and each animation
step's target selector rewritten when it equals the old id selector.  Only
the target field is rewritten; nothing inside vars is. -/
def handleIdChange (st : AppState) (oldId newId : String) : AppState :=
  if oldId = newId ∨ newId = "" then st
  else if st.elements.any (fun el => el.id = newId) then st
  else
    { st with
      elements := st.elements.map (fun el => if el.id = oldId then { el with id := newId } else el),
      selectedElementId := if st.selectedElementId = some oldId then some newId else st.selectedElementId,
      animationSteps := st.animationSteps.map (fun step =>
        { step with target := if step.target = "#" ++ oldId then "#" ++ newId else step.target }) }

/-- handleSort from src/unnamed/part_002 (lines 115-123).  The two drag
refs are Options; splice(i, 1) is eraseIdx plus the removed element, and
splice(j, 0, x) clamps j to the array length as JavaScript does.  The drag
indices come from the rendered element list, so the dragged index is
always in range; an out-of-range dragged index (unreachable through the
UI) removes nothing. -/
def handleSort (elements : List StageElement)
    (dragItem dragOverItem : Option Nat) : List StageElement :=
  match dragItem, dragOverItem with
  | some i, some j =>
    let rest := elements.eraseIdx i
    match elements[i]? with
    | some dragged => rest.insertIdx (min j rest.length) dragged
    | none => rest
  | _, _ => elements

/-- Array.prototype.join with a separator, as used by formatGSAPCode. -/
def jsJoin (sep : String) : List String → String
  | [] => ""
  | [x] => x
  | x :: y :: xs => x ++ sep ++ jsJoin sep (y :: xs)

/-- Truthiness of a property access on a vars object (absent property is
undefined, hence falsy). -/
def varsTruthyProp (vars : List (String × Json)) (key : String) : Bool :=
  match getProp vars key with
  | some v => jsTruthy v
  | none => false

/-- The position suffix of a serialized timeline step: the source tests the
position with JavaScript truthiness, so an absent or empty position emits
nothing. -/
def jsPositionString : Option String → String
  | some p => if p = "" then "" else ", \"" ++ p ++ "\""
  | none => ""

/-- Truthiness of step.vars.scrollTrigger, as tested by formatGSAPCode. -/
def stepUsesScroll (step : AnimationStep) : Bool :=
  varsTruthyProp step.vars "scrollTrigger"

/-- Truthiness of step.vars.text, as tested by formatGSAPCode. -/
def stepUsesText (step : AnimationStep) : Bool :=
  varsTruthyProp step.vars "text"

/-- The serialized timeline statement for one step without a scrollTrigger
(src/unnamed/part_002, lines 24-28). -/
def timelineLine (stringifyVars : List (String × Json) → String)
    (step : AnimationStep) : String :=
  "tl.to(\"" ++ step.target ++ "\", " ++ stringifyVars step.vars ++
    jsPositionString step.position ++ ");"

/-- The serialized tween statement for one step with a scrollTrigger
(src/unnamed/part_002, lines 30-33). -/
def scrollLine (stringifyVars : List (String × Json) → String)
    (step : AnimationStep) : String :=
  "gsap.to(\"" ++ step.target ++ "\", " ++ stringifyVars step.vars ++ ");"

/-- formatGSAPCode from src/unnamed/part_002 (lines 13-44).  The call
JSON.stringify(step.vars, null, 2) followed by the key-unquoting regex
replace is the parameter stringifyVars (an external runtime function whose
output the claims do not constrain). -/
def formatGSAPCode (stringifyVars : List (String × Json) → String)
    (steps : List AnimationStep) : String :=
  if steps.length = 0 then "// No animation steps generated yet."
  else
    let hasScrollTrigger := steps.any stepUsesScroll
    let hasTextPlugin := steps.any stepUsesText
    let header :=
      if hasScrollTrigger || hasTextPlugin then
        "gsap.registerPlugin(" ++
          jsJoin ", " ([(hasScrollTrigger, "ScrollTrigger"), (hasTextPlugin, "TextPlugin")].filterMap
            (fun c => if c.fst then some c.snd else none)) ++ ");\n\n"
      else ""
    let timelineSteps := jsJoin "\n"
      ((steps.filter (fun step => !(stepUsesScroll step))).map (timelineLine stringifyVars))
    let scrollTriggerSteps := jsJoin "\n\n"
      ((steps.filter stepUsesScroll).map (scrollLine stringifyVars))
    let code :=
      (if timelineSteps = "" then "" else "const tl = gsap.timeline();\n" ++ timelineSteps ++ "\n\n")
      ++ (if scrollTriggerSteps = "" then "" else scrollTriggerSteps)
    header ++ code

/-- The registerPlugin header as the claim words it: present exactly when
some step uses the scrollTrigger or the text plugin. -/
def registerPluginHeader (steps : List AnimationStep) : String :=
  if steps.any stepUsesScroll then
    if steps.any stepUsesText then "gsap.registerPlugin(ScrollTrigger, TextPlugin);\n\n"
    else "gsap.registerPlugin(ScrollTrigger);\n\n"
  else if steps.any stepUsesText then "gsap.registerPlugin(TextPlugin);\n\n"
  else ""

/-- A call against the browser's persistent localStorage. -/
inductive StorageOp where
  | getItem (key : String)
  | setItem (key : String) (value : String)

/-- Key of a storage operation. -/
def StorageOp.key : StorageOp → String
  | .getItem k => k
  | .setItem k _ => k

/-- Whether a storage operation writes. -/
def StorageOp.isWrite : StorageOp → Bool
  | .getItem _ => false
  | .setItem _ _ => true

/-- Every localStorage call site in the App source (src/unnamed/part_002):
the selection-outline theme read at line 310, the initial theme-state read
at line 502, and the theme-effect write at line 513.  Elements, animation
steps, chat history and canvas settings appear in no storage call. -/
def appStorageOps (theme : String) : List StorageOp :=
  [.getItem "theme", .getItem "theme", .setItem "theme" theme]

/-- State of the chat send path: the loading flag and the number of
sendMessageToAI calls awaiting a response. -/
structure UiState where
  isLoading : Bool
  inflight : Nat
  deriving DecidableEq, Repr

/-- Atomic events of the chat send path, as the browser event loop
linearizes them.  send models a dispatch through handleSend
(src/App.tsx lines 175-180 and src/unnamed/part_002 lines 374-379: guarded
by a non-blank input and isLoading being false) immediately followed by
the synchronous prefix of handleSendMessage (src/unnamed/part_002 lines
529-532: setIsLoading(true) and the start of the network call, which
React flushes before any further input event is handled).  complete models
the response of a pending call being processed, ending in the finally
block's setIsLoading(false) (line 563). -/
inductive UiStep : UiState → UiState → Prop where
  | send (s : UiState) (input : String) (hin : jsTrim input ≠ "")
      (hload : s.isLoading = false) :
      UiStep s { isLoading := true, inflight := s.inflight + 1 }
  | complete (s : UiState) (hpending : 0 < s.inflight) :
      UiStep s { isLoading := false, inflight := s.inflight - 1 }

/-- States of the chat send path reachable from the initial App state
(isLoading false, no pending call). -/
inductive UiReachable : UiState → Prop where
  | init : UiReachable { isLoading := false, inflight := 0 }
  | step {s t : UiState} : UiReachable s → UiStep s t → UiReachable t

/-- Field access on a JSON object value. -/
def getField (v : Json) (key : String) : Option Json :=
  match v with
  | .obj fs => getProp fs key
  | _ => none

/-- A fixed demonstration element, used by concrete witnesses. -/
def demoElement : StageElement :=
  { id := "box-1", type := .box, x := 50, y := 50, width := "100px",
    height := "100px", rotation := 0, opacity := 1 }

/-- A fixed demonstration App state, used by concrete witnesses. -/
def demoState : AppState :=
  { elements := [demoElement], selectedElementId := some "box-1",
    animationSteps := [], chatHistory := [], isLoading := false }

/-- A second and third demonstration element and the list used by concrete
witnesses about list manipulation. -/
def demoElements : List StageElement :=
  [demoElement, { demoElement with id := "box-2" }, { demoElement with id := "box-3" }]

/-- A modification response used by the C5 witness. -/
def demoModResp : AIResponse :=
  { response_type := "element_modification",
    modified_elements := some [("box-1", { x := some 100 })] }

/-- Whether an animation step references an element id: through its target
selector, or through the scrollTrigger trigger selector inside its vars —
the two places where the application itself writes element references (the
scroll presets at src/unnamed/part_002 lines 209-212 set
vars.scrollTrigger.trigger to the selected element's id selector, and the
AI contract at src/unnamed/part_000 line 17 demands the same). -/
def stepRefersTo (step : AnimationStep) (id : String) : Bool :=
  (step.target == "#" ++ id) ||
    (match getProp step.vars "scrollTrigger" with
     | some (Json.obj fs) =>
       match getProp fs "trigger" with
       | some (Json.str s) => s == "#" ++ id
       | _ => false
     | _ => false)

/-- A scroll-preset animation step on the demonstration element, as
produced by the Fade In on Scroll preset. -/
def c2Step : AnimationStep :=
  { target := "#box-1",
    vars := [("autoAlpha", Json.num 1),
             ("scrollTrigger", Json.obj [("trigger", Json.str "#box-1"),
                                         ("start", Json.str "top 80%")])] }

/-- A state with one element and one scroll-preset step on it; used by the
rename theorems. -/
def c2State : AppState :=
  { elements := [demoElement],
    selectedElementId := some "box-1",
    animationSteps := [c2Step],
    chatHistory := [],
    isLoading := false }

theorem handleSendMessage_animationSteps_eq (st : AppState) (message : String)
    (resp : AIResponse) :
    (handleSendMessage st message resp).animationSteps =
      (if resp.response_type = "animation" then
        match resp.animation_steps with
        | some steps =>
          if steps.length > 0 then st.animationSteps ++ steps else st.animationSteps
        | none => st.animationSteps
      else st.animationSteps) := by
  unfold handleSendMessage
  cases has : resp.animation_steps <;>
  by_cases h1 : jsTruthyStr resp.explanation <;>
  by_cases h2 : resp.response_type = "element_creation" <;>
  by_cases h3 : resp.response_type = "element_modification" <;>
  by_cases h4 : resp.response_type = "animation" <;>
  cases hne : resp.new_elements <;>
  cases hme : resp.modified_elements <;>
  simp [h1, h2, h3, h4, hne, hme, has] <;>
  (try (split <;> simp))

theorem handleSendMessage_elements_eq (st : AppState) (message : String)
    (resp : AIResponse) :
    (handleSendMessage st message resp).elements =
      (let created :=
        if resp.response_type = "element_creation" then
          match resp.new_elements with
          | some newEls => st.elements ++ newEls
          | none => st.elements
        else st.elements
      if resp.response_type = "element_modification" then
        match resp.modified_elements with
        | some mods => applyModifications created mods
        | none => created
      else created) := by
  unfold handleSendMessage
  cases has : resp.animation_steps <;>
  by_cases h1 : jsTruthyStr resp.explanation <;>
  by_cases h2 : resp.response_type = "element_creation" <;>
  by_cases h3 : resp.response_type = "element_modification" <;>
  by_cases h4 : resp.response_type = "animation" <;>
  cases hne : resp.new_elements <;>
  cases hme : resp.modified_elements <;>
  simp [h1, h2, h3, h4, hne, hme, has] <;>
  (try (split <;> simp))

/-- C1: when the AI response has response_type animation and a non-empty
animation_steps array, handleSendMessage appends those steps to the end of
the existing step list, preserving every previously built step and their
order; for a response of any other type the step list is unchanged. -/
theorem handleSendMessage_animation_appends (st : AppState) (message : String)
    (resp : AIResponse) :
    (∀ steps, resp.response_type = "animation" → resp.animation_steps = some steps →
      steps ≠ [] →
      (handleSendMessage st message resp).animationSteps = st.animationSteps ++ steps) ∧
    (resp.response_type ≠ "animation" →
      (handleSendMessage st message resp).animationSteps = st.animationSteps) := by
  constructor
  · intro steps hty hsteps hne
    rw [handleSendMessage_animationSteps_eq, hty, hsteps]
    simp [List.length_pos.mpr hne]
  · intro hty
    rw [handleSendMessage_animationSteps_eq]
    simp [hty]

/-- C1 witness: appending one concrete step, and a clarification response
leaving the list unchanged. -/
theorem handleSendMessage_animation_appends_witness :
    (handleSendMessage demoState "spin it"
        { response_type := "animation",
          animation_steps := some [{ target := "#box-1", vars := [("rotation", Json.num 360)] }] }).animationSteps
      = demoState.animationSteps ++ [{ target := "#box-1", vars := [("rotation", Json.num 360)] }] ∧
    (handleSendMessage demoState "hello"
        { response_type := "clarification" }).animationSteps = demoState.animationSteps :=
  ⟨(handleSendMessage_animation_appends demoState "spin it" _).1 _ rfl rfl (by simp),
   (handleSendMessage_animation_appends demoState "hello" _).2 (by decide)⟩

theorem uiReachable_invariant (s : UiState) (h : UiReachable s) :
    s.inflight ≤ 1 ∧ (s.isLoading = false → s.inflight = 0) := by
  induction h with
  | init => exact ⟨Nat.zero_le 1, fun _ => rfl⟩
  | step hr hstep ih =>
    cases hstep with
    | send input hin hload =>
      have h0 := ih.2 hload
      refine ⟨?_, ?_⟩ <;> dsimp only
      · omega
      · intro hf
        exact absurd hf (by simp)
    | complete hp =>
      have h1 := ih.1
      refine ⟨?_, ?_⟩ <;> dsimp only
      · omega
      · intro hf
        omega

/-- C4: in every reachable state of the chat send path, at most one network
request is in flight, because handleSend dispatches only while isLoading is
false and handleSendMessage holds isLoading for the whole round trip. -/
theorem at_most_one_inflight (s : UiState) (h : UiReachable s) : s.inflight ≤ 1 :=
  (uiReachable_invariant s h).1

/-- C4 witness: the state reached after one dispatch has one pending call. -/
theorem at_most_one_inflight_witness :
    UiReachable { isLoading := true, inflight := 1 } ∧
    ({ isLoading := true, inflight := 1 } : UiState).inflight ≤ 1 := by
  have hreach : UiReachable { isLoading := true, inflight := 1 } :=
    UiReachable.step UiReachable.init (UiStep.send _ "hi" (by decide) rfl)
  exact ⟨hreach, at_most_one_inflight _ hreach⟩

/-- C8: every write the application makes to persistent storage has key
theme (and writes the current theme); elements, animation steps, chat
history and canvas settings are never persisted. -/
theorem theme_only_persistent_write (theme k v : String)
    (h : StorageOp.setItem k v ∈ appStorageOps theme) : k = "theme" ∧ v = theme := by
  simp only [appStorageOps, List.mem_cons, List.mem_singleton] at h
  rcases h with h | h | h
  · exact absurd h (by simp)
  · exact absurd h (by simp)
  · rcases h with h | h
    · injection h with h1 h2
      exact ⟨h1, h2⟩
    · exact absurd h (by simp)

/-- C8 witness: the theme write itself. -/
theorem theme_only_persistent_write_witness :
    (StorageOp.setItem "theme" "dark" ∈ appStorageOps "dark") ∧
    ("theme" = "theme" ∧ "dark" = "dark") :=
  ⟨by simp [appStorageOps],
   theme_only_persistent_write "dark" "theme" "dark" (by simp [appStorageOps])⟩

/-- C3: sendMessageToAI performs no validation of the model reply against
the declared response schema — for a non-empty message, whenever the reply
text (trimmed) is a brace-delimited string that JSON.parse accepts, the
parsed value is returned to the caller unchanged, whatever fields it
contains, omits or mistypes; this holds for both drafts of the service. -/
theorem sendMessageToAI_no_validation (message txt : String)
    (parse : String → Except Thrown Json) (fence : String → Option String)
    (v : Json)
    (hmsg : jsTrim message ≠ "")
    (hstart : jsStartsWith (jsTrim txt) "\x7b" = true)
    (hend : jsEndsWith (jsTrim txt) "\x7d" = true)
    (hparse : parse (jsTrim txt) = .ok v) :
    sendMessageToAI message (.ok txt) parse fence = .ok v ∧
    sendMessageToAIv1 message (.ok txt) parse = .ok v := by
  unfold sendMessageToAI sendMessageToAIv1
  simp [hmsg, hstart, hend, hparse]

/-- C3 witness: a reply object carrying a field the schema never declared
is handed back as is. -/
theorem sendMessageToAI_no_validation_witness :
    sendMessageToAI "hi" (.ok " \x7b\x22bogus\x22:1\x7d ")
        (fun s => if s = "\x7b\x22bogus\x22:1\x7d" then .ok (Json.obj [("bogus", Json.num 1)]) else .error .other)
        (fun _ => none)
      = .ok (Json.obj [("bogus", Json.num 1)]) ∧
    sendMessageToAIv1 "hi" (.ok " \x7b\x22bogus\x22:1\x7d ")
        (fun s => if s = "\x7b\x22bogus\x22:1\x7d" then .ok (Json.obj [("bogus", Json.num 1)]) else .error .other)
      = .ok (Json.obj [("bogus", Json.num 1)]) :=
  sendMessageToAI_no_validation "hi" " \x7b\x22bogus\x22:1\x7d " _ _ _
    (by decide) (by decide) (by decide) rfl

/-- C9: sendMessageToAI throws exactly for messages whose trimmed text is
empty; for a non-empty message it never throws — a network failure or a
JSON-parse failure is caught and surfaced as an AIResponse object with
response_type error, the draft's fixed apologetic explanation, and
error_message the failure's message (or the fixed unknown-error string for
a non-Error thrown value). -/
theorem sendMessageToAI_error_handling (message : String)
    (net : Except Thrown String) (parse : String → Except Thrown Json)
    (fence : String → Option String) :
    (jsTrim message = "" →
      sendMessageToAI message net parse fence = .error (.error "Message cannot be empty.") ∧
      sendMessageToAIv1 message net parse = .error (.error "Message cannot be empty.")) ∧
    (jsTrim message ≠ "" →
      (∃ r, sendMessageToAI message net parse fence = .ok r) ∧
      (∃ r, sendMessageToAIv1 message net parse = .ok r) ∧
      (∀ e, net = .error e →
        sendMessageToAI message net parse fence = .ok (errorResponseV0 e) ∧
        sendMessageToAIv1 message net parse = .ok (errorResponseV1 e)) ∧
      (∀ e txt, net = .ok txt → jsStartsWith (jsTrim txt) "\x7b" = true →
        jsEndsWith (jsTrim txt) "\x7d" = true → parse (jsTrim txt) = .error e →
        sendMessageToAI message net parse fence = .ok (errorResponseV0 e) ∧
        sendMessageToAIv1 message net parse = .ok (errorResponseV1 e))) ∧
    (∀ e, getField (errorResponseV0 e) "response_type" = some (.str "error") ∧
      getField (errorResponseV0 e) "error_message" = some (.str (thrownMessage e)) ∧
      getField (errorResponseV1 e) "response_type" = some (.str "error") ∧
      getField (errorResponseV1 e) "error_message" = some (.str (thrownMessage e))) := by
  refine ⟨fun hmsg => ?_, fun hmsg => ⟨?_, ?_, fun e hnet => ?_, fun e txt hnet hstart hend hparse => ?_⟩, fun e => ⟨rfl, rfl, rfl, rfl⟩⟩
  · unfold sendMessageToAI sendMessageToAIv1
    simp [hmsg]
  · unfold sendMessageToAI
    simp only [hmsg, if_neg (by exact hmsg)]
    exact ⟨_, rfl⟩
  · unfold sendMessageToAIv1
    simp only [hmsg, if_neg (by exact hmsg)]
    exact ⟨_, rfl⟩
  · subst hnet
    unfold sendMessageToAI sendMessageToAIv1
    simp [hmsg]
  · subst hnet
    unfold sendMessageToAI sendMessageToAIv1
    simp [hmsg, hstart, hend, hparse]

/-- C9 witness: the empty message throws; a network failure and a parse
failure are both surfaced as error responses. -/
theorem sendMessageToAI_error_handling_witness :
    (sendMessageToAI " " (.ok "\x7b\x7d") (fun _ => .error .other) (fun _ => none)
      = .error (.error "Message cannot be empty.")) ∧
    (sendMessageToAI "hi" (.error .other) (fun _ => .error .other) (fun _ => none)
      = .ok (errorResponseV0 .other)) ∧
    (sendMessageToAIv1 "hi" (.ok "\x7b\x7d") (fun _ => .error (.error "boom"))
      = .ok (errorResponseV1 (.error "boom"))) :=
  ⟨((sendMessageToAI_error_handling " " (.ok "\x7b\x7d") (fun _ => .error .other)
      (fun _ => none)).1 (by decide)).1,
   (((sendMessageToAI_error_handling "hi" (.error .other) (fun _ => .error .other)
      (fun _ => none)).2.1 (by decide)).2.2.1 .other rfl).1,
   (((sendMessageToAI_error_handling "hi" (.ok "\x7b\x7d") (fun _ => .error (.error "boom"))
      (fun _ => none)).2.1 (by decide)).2.2.2 (.error "boom") "\x7b\x7d" rfl
      (by decide) (by decide) rfl).2⟩

theorem perm_insertIdx_cons {α : Type u} (x : α) :
    ∀ (k : Nat) (l : List α), k ≤ l.length → (l.insertIdx k x).Perm (x :: l)
  | 0, l, _ => by simp
  | k + 1, [], h => by simp at h
  | k + 1, a :: t, h => by
    rw [List.insertIdx_succ_cons]
    exact ((perm_insertIdx_cons x k t (by simpa using h)).cons a).trans
      (List.Perm.swap x a t)

theorem perm_cons_eraseIdx {α : Type u} {l : List α} {i : Nat} (h : i < l.length) :
    (l[i] :: l.eraseIdx i).Perm l := by
  rw [List.eraseIdx_eq_take_drop_succ]
  calc (l[i] :: (l.take i ++ l.drop (i + 1))).Perm (l.take i ++ l[i] :: l.drop (i + 1)) :=
        List.perm_middle.symm
    _ = l := by rw [← List.drop_eq_getElem_cons h, List.take_append_drop]

/-- C6: when both drag indices are set (and index the element list),
handleSort removes the dragged element and re-inserts it at the drop
index — the result is a permutation of the old list with the dragged
element at the drop position and the relative order of all other elements
preserved; with either index unset the list is unchanged. -/
theorem handleSort_reorders (elements : List StageElement) (i j : Nat)
    (hi : i < elements.length) (hj : j < elements.length) :
    (handleSort elements (some i) (some j)).Perm elements ∧
    (handleSort elements (some i) (some j))[j]? = elements[i]? ∧
    (handleSort elements (some i) (some j)).eraseIdx j = elements.eraseIdx i ∧
    (∀ d o, d = none ∨ o = none → handleSort elements d o = elements) := by
  have hget : elements[i]? = some elements[i] := List.getElem?_eq_getElem hi
  have hrestlen : (elements.eraseIdx i).length = elements.length - 1 :=
    List.length_eraseIdx_of_lt hi
  have hjle : j ≤ (elements.eraseIdx i).length := by omega
  have hmin : min j (elements.eraseIdx i).length = j := Nat.min_eq_left hjle
  have hdef : handleSort elements (some i) (some j)
      = (elements.eraseIdx i).insertIdx j elements[i] := by
    simp [handleSort, hget, hmin]
  refine ⟨?_, ?_, ?_, ?_⟩
  · rw [hdef]
    exact (perm_insertIdx_cons _ j _ hjle).trans (perm_cons_eraseIdx hi)
  · rw [hdef, hget]
    have hlen : j < ((elements.eraseIdx i).insertIdx j elements[i]).length := by
      rw [List.length_insertIdx j _ hjle]; omega
    rw [List.getElem?_eq_getElem hlen, List.getElem_insertIdx_self _ _ _ hjle]
  · rw [hdef, List.eraseIdx_insertIdx]
  · intro d o h
    rcases h with rfl | rfl
    · rfl
    · cases d <;> rfl

/-- C6 witness: dragging the first element onto the second position of a
concrete three-element list. -/
theorem handleSort_reorders_witness :
    (handleSort demoElements (some 0) (some 1)).Perm demoElements ∧
    (handleSort demoElements (some 0) (some 1))[1]? = demoElements[0]? ∧
    (handleSort demoElements (some 0) (some 1)).eraseIdx 1 = demoElements.eraseIdx 0 ∧
    (∀ d o, d = none ∨ o = none → handleSort demoElements d o = demoElements) :=
  handleSort_reorders demoElements 0 1 (by decide) (by decide)

theorem applyModification_length (acc : List StageElement) (m : String × ElementPatch) :
    (applyModification acc m).length = acc.length := by
  cases hfind : acc.findIdx? (fun e => e.id = m.fst) with
  | none => simp [applyModification, hfind]
  | some idx =>
    cases hget : acc[idx]? with
    | none => simp [applyModification, hfind, hget]
    | some el => simp [applyModification, hfind, hget]

theorem applyModifications_length (mods : List (String × ElementPatch)) :
    ∀ acc : List StageElement, (applyModifications acc mods).length = acc.length := by
  induction mods with
  | nil => intro acc; rfl
  | cons m rest ih =>
    intro acc
    show (applyModifications (applyModification acc m) rest).length = acc.length
    rw [ih, applyModification_length]

theorem applyPatch_id_of_none {el : StageElement} {p : ElementPatch}
    (h : p.id = none) : (applyPatch el p).id = el.id := by
  simp [applyPatch, h]

theorem applyModification_getElem?_of_ne {acc : List StageElement} {k : Nat}
    {el : StageElement} {m : String × ElementPatch}
    (hk : acc[k]? = some el) (hne : el.id ≠ m.fst) :
    (applyModification acc m)[k]? = some el := by
  cases hfind : acc.findIdx? (fun e => e.id = m.fst) with
  | none => simpa [applyModification, hfind] using hk
  | some idx =>
    cases hget : acc[idx]? with
    | none => simpa [applyModification, hfind, hget] using hk
    | some el2 =>
      have hp := List.findIdx?_of_eq_some hfind
      rw [hget] at hp
      have hid2 : el2.id = m.fst := by simpa using hp
      have hkne : idx ≠ k := by
        intro hidx
        rw [hidx, hk] at hget
        injection hget with h2
        exact hne (h2 ▸ hid2)
      simp only [applyModification, hfind, hget]
      rw [List.getElem?_set_ne hkne]
      exact hk

theorem applyModifications_getElem?_of_ne {mods : List (String × ElementPatch)} :
    ∀ {acc : List StageElement} {k : Nat} {el : StageElement}, acc[k]? = some el →
    (∀ m ∈ mods, el.id ≠ m.fst) → (applyModifications acc mods)[k]? = some el := by
  induction mods with
  | nil => intro _ _ _ hk _; exact hk
  | cons m rest ih =>
    intro acc k el hk hall
    exact ih (applyModification_getElem?_of_ne hk (hall m (by simp)))
      (fun m2 hm2 => hall m2 (by simp [hm2]))

theorem applyModification_map_id {acc : List StageElement} {m : String × ElementPatch}
    (h : m.snd.id = none) :
    (applyModification acc m).map StageElement.id = acc.map StageElement.id := by
  cases hfind : acc.findIdx? (fun e => e.id = m.fst) with
  | none => simp [applyModification, hfind]
  | some idx =>
    cases hget : acc[idx]? with
    | none => simp [applyModification, hfind, hget]
    | some el =>
      have hlt : idx < acc.length := by
        rcases List.getElem?_eq_some.mp hget with ⟨hb, _⟩
        exact hb
      simp only [applyModification, hfind, hget]
      apply List.ext_getElem?
      intro n
      rw [List.getElem?_map, List.getElem?_map]
      by_cases hn : idx = n
      · subst hn
        rw [List.getElem?_set_eq_of_lt _ hlt, hget]
        simp [applyPatch_id_of_none h]
      · rw [List.getElem?_set_ne hn]

theorem applyModifications_map_id {mods : List (String × ElementPatch)} :
    ∀ {acc : List StageElement}, (∀ m ∈ mods, m.snd.id = none) →
    (applyModifications acc mods).map StageElement.id = acc.map StageElement.id := by
  induction mods with
  | nil => intro _ _; rfl
  | cons m rest ih =>
    intro acc hall
    show (applyModifications (applyModification acc m) rest).map _ = _
    rw [ih (fun m2 hm2 => hall m2 (by simp [hm2])),
      applyModification_map_id (hall m (by simp))]

theorem applyModifications_applies {mods : List (String × ElementPatch)} :
    ∀ {acc : List StageElement}, (acc.map StageElement.id).Nodup →
    (mods.map Prod.fst).Nodup →
    (∀ m ∈ mods, m.snd.id = none) →
    ∀ {i : String} {p : ElementPatch}, (i, p) ∈ mods →
    ∀ {k : Nat} {el : StageElement}, acc[k]? = some el → el.id = i →
    (applyModifications acc mods)[k]? = some (applyPatch el p) := by
  induction mods with
  | nil =>
    intro _ _ _ _ _ _ hmem
    exact absurd hmem (List.not_mem_nil _)
  | cons m rest ih =>
    intro acc hacc hmods hid i p hmem k el hk hel
    have hklt : k < acc.length := by
      rcases List.getElem?_eq_some.mp hk with ⟨hb, _⟩
      exact hb
    rcases List.mem_cons.mp hmem with heq | hmem2
    · have hm : m = (i, p) := heq.symm
      subst hm
      have hgetk : acc[k] = el := by
        rcases List.getElem?_eq_some.mp hk with ⟨_, hv⟩
        exact hv
      have hfind : acc.findIdx? (fun e => e.id = i) = some k := by
        rw [List.findIdx?_eq_some_iff_getElem]
        refine ⟨hklt, by simp [hgetk, hel], ?_⟩
        intro j hj
        simp only [Bool.not_eq_true, decide_eq_false_iff_not]
        intro hjid
        have hjlt : j < acc.length := Nat.lt_trans hj hklt
        have hjm : j < (acc.map StageElement.id).length := by simpa using hjlt
        have hkm : k < (acc.map StageElement.id).length := by simpa using hklt
        have hmapn : (acc.map StageElement.id)[j] = (acc.map StageElement.id)[k] := by
          rw [List.getElem_map, List.getElem_map, hjid, hgetk, hel]
        have := hacc.getElem_inj_iff.mp hmapn
        omega
      have hstep : (applyModification acc (i, p))[k]? = some (applyPatch el p) := by
        simp only [applyModification, hfind, hk]
        exact List.getElem?_set_eq_of_lt _ hklt
      have hifree : i ∉ rest.map Prod.fst := by
        have h2 : (i :: rest.map Prod.fst).Nodup := by simpa using hmods
        exact (List.nodup_cons.mp h2).1
      show (applyModifications (applyModification acc (i, p)) rest)[k]? = _
      refine applyModifications_getElem?_of_ne hstep ?_
      intro m2 hm2
      rw [applyPatch_id_of_none (hid (i, p) (by simp)), hel]
      intro hcontra
      exact hifree (hcontra ▸ List.mem_map.mpr ⟨m2, hm2, rfl⟩)
    · have hifst : i ∈ rest.map Prod.fst := List.mem_map.mpr ⟨(i, p), hmem2, rfl⟩
      have hmfst : m.fst ∉ rest.map Prod.fst := by
        have h2 : (m.fst :: rest.map Prod.fst).Nodup := by simpa using hmods
        exact (List.nodup_cons.mp h2).1
      have hrestnodup : (rest.map Prod.fst).Nodup := by
        have h2 : (m.fst :: rest.map Prod.fst).Nodup := by simpa using hmods
        exact (List.nodup_cons.mp h2).2
      have hne : el.id ≠ m.fst := by
        rw [hel]
        intro hcontra
        exact hmfst (hcontra ▸ hifst)
      have hk2 := applyModification_getElem?_of_ne hk hne
      have hacc2 : ((applyModification acc m).map StageElement.id).Nodup := by
        rw [applyModification_map_id (hid m (by simp))]
        exact hacc
      exact ih hacc2 hrestnodup
        (fun m2 hm2 => hid m2 (by simp [hm2])) hmem2 hk2 hel

theorem handleSendMessage_modification_elements (st : AppState) (message : String)
    (resp : AIResponse) (mods : List (String × ElementPatch))
    (hty : resp.response_type = "element_modification")
    (hmods : resp.modified_elements = some mods) :
    (handleSendMessage st message resp).elements = applyModifications st.elements mods := by
  rw [handleSendMessage_elements_eq, hty, hmods]
  simp

/-- C5: on an element_modification response, each listed entry overwrites
exactly its listed props on the element with its id, other elements are
unchanged, unmatched entries create nothing, and the element list keeps its
length and order (ids in place). -/
theorem handleSendMessage_modification_frame (st : AppState) (message : String)
    (resp : AIResponse) (mods : List (String × ElementPatch))
    (hty : resp.response_type = "element_modification")
    (hmods : resp.modified_elements = some mods) :
    ((handleSendMessage st message resp).elements.length = st.elements.length) ∧
    (∀ (k : Nat) (el : StageElement), st.elements[k]? = some el →
      (∀ m ∈ mods, el.id ≠ m.fst) →
      (handleSendMessage st message resp).elements[k]? = some el) ∧
    ((∀ m ∈ mods, m.snd.id = none) →
      (handleSendMessage st message resp).elements.map StageElement.id
        = st.elements.map StageElement.id) ∧
    ((st.elements.map StageElement.id).Nodup → (mods.map Prod.fst).Nodup →
      (∀ m ∈ mods, m.snd.id = none) →
      ∀ (i : String) (p : ElementPatch), (i, p) ∈ mods →
      ∀ (k : Nat) (el : StageElement), st.elements[k]? = some el → el.id = i →
        (handleSendMessage st message resp).elements[k]? = some (applyPatch el p)) := by
  have hbr := handleSendMessage_modification_elements st message resp mods hty hmods
  rw [hbr]
  exact ⟨applyModifications_length mods st.elements,
    fun k el hk hall => applyModifications_getElem?_of_ne hk hall,
    fun hid => applyModifications_map_id hid,
    fun hnodup hmodsn hid i p hmem k el hk hel =>
      applyModifications_applies hnodup hmodsn hid hmem hk hel⟩

/-- C5 witness: a concrete modification overwriting x on the only element,
with length preserved. -/
theorem handleSendMessage_modification_frame_witness :
    ((handleSendMessage demoState "m" demoModResp).elements.length
      = demoState.elements.length) ∧
    ((handleSendMessage demoState "m" demoModResp).elements[0]?
      = some (applyPatch demoElement ({ x := some 100 } : ElementPatch))) :=
  ⟨(handleSendMessage_modification_frame demoState "m" demoModResp
      [("box-1", { x := some 100 })] rfl rfl).1,
   (handleSendMessage_modification_frame demoState "m" demoModResp
      [("box-1", { x := some 100 })] rfl rfl).2.2.2 (by decide) (by decide)
      (by decide) "box-1" { x := some 100 } (by decide) 0 demoElement rfl rfl⟩

theorem nodup_rename_ids (ids : List String) (oldId newId : String)
    (h : ids.Nodup) (hfree : ∀ i ∈ ids, i ≠ newId) :
    (ids.map (fun i => if i = oldId then newId else i)).Nodup := by
  refine h.map_on ?_
  intro x hx y hy hxy
  by_cases cx : x = oldId <;> by_cases cy : y = oldId <;> simp [cx, cy] at hxy ⊢
  · exact absurd hxy.symm (hfree y hy)
  · exact absurd hxy (hfree x hx)
  · exact hxy

/-- C10: handleIdChange is a no-op when the new id is empty, equal to the
old id, or already used by some element; and a rename never breaks
distinctness of the element ids. -/
theorem handleIdChange_guards (st : AppState) (oldId newId : String) :
    ((newId = "" ∨ newId = oldId ∨ ∃ el ∈ st.elements, el.id = newId) →
      handleIdChange st oldId newId = st) ∧
    ((st.elements.map StageElement.id).Nodup →
      ((handleIdChange st oldId newId).elements.map StageElement.id).Nodup) := by
  constructor
  · intro h
    unfold handleIdChange
    by_cases hg1 : oldId = newId ∨ newId = ""
    · simp [hg1]
    · have hany : st.elements.any (fun el => el.id = newId) = true := by
        rcases h with h | h | ⟨el, hmem, hid⟩
        · exact absurd (Or.inr h) hg1
        · exact absurd (Or.inl h.symm) hg1
        · exact List.any_eq_true.mpr ⟨el, hmem, by simp [hid]⟩
      simp [hg1, hany]
  · intro hnodup
    unfold handleIdChange
    by_cases hg1 : oldId = newId ∨ newId = ""
    · simpa [hg1] using hnodup
    · by_cases hg2 : st.elements.any (fun el => el.id = newId) = true
      · simpa [hg1, hg2] using hnodup
      · have hfree : ∀ el ∈ st.elements, el.id ≠ newId := by
          intro el hmem he
          exact hg2 (List.any_eq_true.mpr ⟨el, hmem, by simp [he]⟩)
        rw [if_neg hg1, if_neg hg2]
        have hmap : (st.elements.map (fun el =>
            if el.id = oldId then { el with id := newId } else el)).map StageElement.id
            = (st.elements.map StageElement.id).map (fun i => if i = oldId then newId else i) := by
          rw [List.map_map, List.map_map]
          refine List.map_congr_left ?_
          intro el hel
          by_cases he : el.id = oldId <;> simp [he]
        dsimp only
        rw [hmap]
        refine nodup_rename_ids _ oldId newId hnodup ?_
        intro i hi
        rcases List.mem_map.mp hi with ⟨el, hmem, rfl⟩
        exact hfree el hmem

/-- C10 witness: renaming to the empty id is a no-op and distinctness is
kept. -/
theorem handleIdChange_guards_witness :
    handleIdChange demoState "box-1" "" = demoState ∧
    ((handleIdChange demoState "box-1" "").elements.map StageElement.id).Nodup :=
  ⟨(handleIdChange_guards demoState "box-1" "").1 (Or.inl rfl),
   (handleIdChange_guards demoState "box-1" "").2 (by decide)⟩

theorem jsJoin_length_ge_head (sep x : String) (xs : List String) :
    x.length ≤ (jsJoin sep (x :: xs)).length := by
  cases xs with
  | nil => simp [jsJoin]
  | cons y ys =>
    simp only [jsJoin, String.length_append]
    omega

theorem jsJoin_ne_empty {α : Type u} (g : α → String)
    (hg : ∀ s, 0 < (g s).length) (sep : String) (L : List α) (hL : L ≠ []) :
    jsJoin sep (L.map g) ≠ "" := by
  cases L with
  | nil => exact absurd rfl hL
  | cons a t =>
    intro hcontra
    have hlen := jsJoin_length_ge_head sep (g a) (t.map g)
    rw [List.map_cons] at hcontra
    have hzero := congrArg String.length hcontra
    have hga := hg a
    have hempty : ("" : String).length = 0 := rfl
    omega

theorem timelineLine_length_pos (f : List (String × Json) → String)
    (step : AnimationStep) : 0 < (timelineLine f step).length := by
  unfold timelineLine
  simp only [String.length_append]
  have h7 : ("tl.to(\"" : String).length = 7 := rfl
  omega

theorem scrollLine_length_pos (f : List (String × Json) → String)
    (step : AnimationStep) : 0 < (scrollLine f step).length := by
  unfold scrollLine
  simp only [String.length_append]
  have h9 : ("gsap.to(\"" : String).length = 9 := rfl
  omega

/-- C7: formatGSAPCode returns the fixed placeholder exactly on an empty
step list; on a non-empty list the output is the registerPlugin header
(present iff some step uses scrollTrigger or the text plugin) followed by
one tl.to statement per step without a scrollTrigger, in list order, and
one gsap.to statement per step with a scrollTrigger, in list order. -/
theorem formatGSAPCode_serialization (f : List (String × Json) → String)
    (steps : List AnimationStep) :
    (formatGSAPCode f [] = "// No animation steps generated yet.") ∧
    (steps ≠ [] →
      formatGSAPCode f steps =
        registerPluginHeader steps
        ++ (if (steps.filter (fun s => !(stepUsesScroll s))).isEmpty then ""
            else "const tl = gsap.timeline();\n"
              ++ jsJoin "\n" ((steps.filter (fun s => !(stepUsesScroll s))).map (timelineLine f))
              ++ "\n\n")
        ++ jsJoin "\n\n" ((steps.filter stepUsesScroll).map (scrollLine f))) ∧
    (registerPluginHeader steps ≠ "" ↔
      (∃ step ∈ steps, stepUsesScroll step = true) ∨
      (∃ step ∈ steps, stepUsesText step = true)) := by
  refine ⟨rfl, fun hne => ?_, ?_⟩
  · unfold formatGSAPCode
    rw [if_neg (fun h => hne (List.length_eq_zero.mp h))]
    have htl : (if jsJoin "\n" ((steps.filter (fun s => !(stepUsesScroll s))).map (timelineLine f)) = ""
        then ""
        else "const tl = gsap.timeline();\n"
          ++ jsJoin "\n" ((steps.filter (fun s => !(stepUsesScroll s))).map (timelineLine f))
          ++ "\n\n")
        = (if (steps.filter (fun s => !(stepUsesScroll s))).isEmpty then ""
           else "const tl = gsap.timeline();\n"
             ++ jsJoin "\n" ((steps.filter (fun s => !(stepUsesScroll s))).map (timelineLine f))
             ++ "\n\n") := by
      by_cases hT : (steps.filter (fun s => !(stepUsesScroll s))).isEmpty
      · have hT2 : steps.filter (fun s => !(stepUsesScroll s)) = [] := by
          simpa using hT
        rw [if_pos hT, hT2]
        simp [jsJoin]
      · have hT2 : steps.filter (fun s => !(stepUsesScroll s)) ≠ [] := by
          simpa using hT
        rw [if_neg hT,
          if_neg (jsJoin_ne_empty (timelineLine f) (timelineLine_length_pos f) "\n" _ hT2)]
    have hsc : (if jsJoin "\n\n" ((steps.filter stepUsesScroll).map (scrollLine f)) = ""
        then ""
        else jsJoin "\n\n" ((steps.filter stepUsesScroll).map (scrollLine f)))
        = jsJoin "\n\n" ((steps.filter stepUsesScroll).map (scrollLine f)) := by
      by_cases hS : jsJoin "\n\n" ((steps.filter stepUsesScroll).map (scrollLine f)) = ""
      · rw [if_pos hS, hS]
      · rw [if_neg hS]
    have hhead : (if steps.any stepUsesScroll || steps.any stepUsesText then
        "gsap.registerPlugin(" ++
          jsJoin ", " ([(steps.any stepUsesScroll, "ScrollTrigger"), (steps.any stepUsesText, "TextPlugin")].filterMap
            (fun c => if c.fst then some c.snd else none)) ++ ");\n\n"
        else "") = registerPluginHeader steps := by
      unfold registerPluginHeader
      cases hST : steps.any stepUsesScroll <;> cases hTP : steps.any stepUsesText <;>
        simp [jsJoin]
    simp only []
    rw [hhead, htl, hsc]
    simp only [String.append_assoc]
  · unfold registerPluginHeader
    rw [← List.any_eq_true, ← List.any_eq_true]
    cases hST : steps.any stepUsesScroll <;> cases hTP : steps.any stepUsesText <;>
      simp

/-- C7 witness: one plain step and one scrollTrigger step, serialized with
a concrete vars printer. -/
theorem formatGSAPCode_serialization_witness :
    (formatGSAPCode (fun _ => "VARS") [] = "// No animation steps generated yet.") ∧
    (formatGSAPCode (fun _ => "VARS")
        [{ target := "#a", vars := [] },
         { target := "#b", vars := [("scrollTrigger", Json.obj [])] }] =
      registerPluginHeader
          [{ target := "#a", vars := [] },
           { target := "#b", vars := [("scrollTrigger", Json.obj [])] }]
        ++ (if (([{ target := "#a", vars := [] },
                 { target := "#b", vars := [("scrollTrigger", Json.obj [])] }] :
                List AnimationStep).filter (fun s => !(stepUsesScroll s))).isEmpty then ""
            else "const tl = gsap.timeline();\n"
              ++ jsJoin "\n" ((([{ target := "#a", vars := [] },
                   { target := "#b", vars := [("scrollTrigger", Json.obj [])] }] :
                   List AnimationStep).filter (fun s => !(stepUsesScroll s))).map
                   (timelineLine (fun _ => "VARS")))
              ++ "\n\n")
        ++ jsJoin "\n\n" ((([{ target := "#a", vars := [] },
             { target := "#b", vars := [("scrollTrigger", Json.obj [])] }] :
             List AnimationStep).filter stepUsesScroll).map (scrollLine (fun _ => "VARS")))) :=
  ⟨(formatGSAPCode_serialization (fun _ => "VARS") []).1,
   (formatGSAPCode_serialization (fun _ => "VARS")
      [{ target := "#a", vars := [] },
       { target := "#b", vars := [("scrollTrigger", Json.obj [])] }]).2.1 (by simp)⟩

theorem hash_append_inj {a b : String} (h : "#" ++ a = "#" ++ b) : a = b := by
  have hd := congrArg String.data h
  rw [String.data_append, String.data_append] at hd
  have := List.append_cancel_left hd
  cases a with
  | mk da =>
    cases b with
    | mk db =>
      exact congrArg String.mk (by simpa using this)

/-- C2 counterexample: renaming box-1 to hero (a fresh, non-empty id) on a
state whose only step is a scroll preset rewrites the step's target but
leaves vars.scrollTrigger.trigger pointing at the old #box-1 selector, so
an animation step still refers to the old id after the rename. -/
theorem handleIdChange_dangling_trigger :
    ("hero" : String) ≠ "" ∧ ("box-1" : String) ≠ "hero" ∧
    (∀ el ∈ c2State.elements, el.id ≠ "hero") ∧
    ((handleIdChange c2State "box-1" "hero").animationSteps.any
      (fun s => stepRefersTo s "box-1")) = true := by
  refine ⟨by decide, by decide, by decide, ?_⟩
  rfl

/-- C2 (amended): a rename to a fresh non-empty id renames the element in
place with every other property kept, moves the selection along when the
renamed element was selected, and rewrites each animation step's target
selector so that no step's target refers to the old id afterwards; element
references inside step vars (such as scrollTrigger.trigger) are not
rewritten. -/
theorem handleIdChange_rename (st : AppState) (oldId newId : String)
    (hne : newId ≠ "") (hdiff : oldId ≠ newId)
    (hfree : ∀ el ∈ st.elements, el.id ≠ newId) :
    ((handleIdChange st oldId newId).elements.length = st.elements.length) ∧
    (∀ (k : Nat) (el : StageElement), st.elements[k]? = some el →
      (handleIdChange st oldId newId).elements[k]?
        = some (if el.id = oldId then { el with id := newId } else el)) ∧
    (st.selectedElementId = some oldId →
      (handleIdChange st oldId newId).selectedElementId = some newId) ∧
    (st.selectedElementId ≠ some oldId →
      (handleIdChange st oldId newId).selectedElementId = st.selectedElementId) ∧
    ((handleIdChange st oldId newId).animationSteps
      = st.animationSteps.map (fun step =>
          { step with target := if step.target = "#" ++ oldId then "#" ++ newId else step.target })) ∧
    (∀ step ∈ (handleIdChange st oldId newId).animationSteps,
      step.target ≠ "#" ++ oldId) := by
  have hg1 : ¬(oldId = newId ∨ newId = "") := by
    rintro (h | h)
    · exact hdiff h
    · exact hne h
  have hg2 : ¬(st.elements.any (fun el => el.id = newId) = true) := by
    intro h
    rcases List.any_eq_true.mp h with ⟨el, hmem, hel⟩
    exact hfree el hmem (by simpa using hel)
  unfold handleIdChange
  rw [if_neg hg1, if_neg hg2]
  refine ⟨by simp, ?_, ?_, ?_, rfl, ?_⟩
  · intro k el hk
    dsimp only
    rw [List.getElem?_map, hk]
    rfl
  · intro hsel
    dsimp only
    rw [if_pos hsel]
  · intro hsel
    dsimp only
    rw [if_neg hsel]
  · intro step hmem
    dsimp only at hmem
    rcases List.mem_map.mp hmem with ⟨s0, hs0, rfl⟩
    dsimp only
    by_cases hts : s0.target = "#" ++ oldId
    · rw [if_pos hts]
      intro hcontra
      exact hdiff (hash_append_inj hcontra).symm
    · rw [if_neg hts]
      exact hts

/-- C2 witness: the amended rename statement at the concrete preset
state. -/
theorem handleIdChange_rename_witness :
    ((handleIdChange c2State "box-1" "hero").elements.length = c2State.elements.length) ∧
    (∀ (k : Nat) (el : StageElement), c2State.elements[k]? = some el →
      (handleIdChange c2State "box-1" "hero").elements[k]?
        = some (if el.id = "box-1" then { el with id := "hero" } else el)) ∧
    (c2State.selectedElementId = some "box-1" →
      (handleIdChange c2State "box-1" "hero").selectedElementId = some "hero") ∧
    (c2State.selectedElementId ≠ some "box-1" →
      (handleIdChange c2State "box-1" "hero").selectedElementId = c2State.selectedElementId) ∧
    ((handleIdChange c2State "box-1" "hero").animationSteps
      = c2State.animationSteps.map (fun step =>
          { step with target := if step.target = "#" ++ "box-1" then "#" ++ "hero" else step.target })) ∧
    (∀ step ∈ (handleIdChange c2State "box-1" "hero").animationSteps,
      step.target ≠ "#" ++ "box-1") :=
  handleIdChange_rename c2State "box-1" "hero" (by decide) (by decide) (by decide)
